import Mathlib

/-!
Verification of the per-pixel collision subsystem of the `rust-objects`
repository: the transparency-mask builders
(`animated_image.rs::generate_mask`, `image_button.rs::generate_mask`,
`images_obj.rs::generate_mask`) and `collision.rs::check_collision`.

Modelling conventions:
* `f32` coordinates are embedded as exact rationals `ℚ`; Rust's `as usize`
  cast of a non-negative finite float is `Int.toNat ∘ Int.floor`.
* Byte buffers are `List ℕ` (each entry a byte value).
* A Rust panic (out-of-bounds slice index, `step_by(0)`) is modelled as
  `Except.error "..."`; a normal return is `Except.ok`.
-/

/-- Screen/texture vector, mirroring `macroquad::Vec2` with exact rationals. -/
structure Vec2 where
  x : ℚ
  y : ℚ
deriving DecidableEq

/-- The `Collidable` capability of `collision.rs`: position, display size,
texture (single-frame) pixel size, and the optional packed opacity mask. -/
structure Collidable where
  pos : Vec2
  size : Vec2
  texture_size : Vec2
  get_mask : Option (List ℕ)
deriving DecidableEq

/-- Rust `as usize` on a non-negative finite `f32` value: truncate toward
zero (our values of interest are all non-negative, so floor). -/
def toUsize (q : ℚ) : ℕ := (⌊q⌋).toNat

/-- Rust `(0..n).step_by(s)`: the multiples of `s` below `n`, for `s ≥ 1`. -/
def stepByRange (n s : ℕ) : List ℕ :=
  (List.range n).filter (fun i => i % s == 0)

/-- The mask bit of pixel index `i`: byte `i / 8`, bit `7 - i % 8`
(row-major, MSB-first), read with default 0 past the end. -/
def bitOf (m : List ℕ) (i : ℕ) : Bool :=
  Nat.testBit (m.getD (i / 8) 0) (7 - i % 8)

/-- Source `mask[i/8] |= 1 << (7 - i%8)`. -/
def setMaskBit (m : List ℕ) (i : ℕ) : List ℕ :=
  m.set (i / 8) (m.getD (i / 8) 0 ||| (1 <<< (7 - i % 8)))

/-- Source `mask[i/8] &= !(1 << (7 - i%8))` (u8 complement is xor 255). -/
def clearMaskBit (m : List ℕ) (i : ℕ) : List ℕ :=
  m.set (i / 8) (m.getD (i / 8) 0 &&& (255 ^^^ (1 <<< (7 - i % 8))))

/-- Source `((sample_pos - pos) / size * texture_size) as usize`. -/
def texCoord (sp p s t : ℚ) : ℕ :=
  toUsize ((sp - p) / s * t)

/-- The x coordinate of the screen-space intersection: `pos1.x.max(pos2.x)`. -/
def overlapX (o1 o2 : Collidable) : ℚ := max o1.pos.x o2.pos.x

/-- The y coordinate of the screen-space intersection. -/
def overlapY (o1 o2 : Collidable) : ℚ := max o1.pos.y o2.pos.y

/-- Intersection width: `(pos1.x+size1.x).min(pos2.x+size2.x) - overlap_x`. -/
def overlapW (o1 o2 : Collidable) : ℚ :=
  min (o1.pos.x + o1.size.x) (o2.pos.x + o2.size.x) - overlapX o1 o2

/-- Intersection height. -/
def overlapH (o1 o2 : Collidable) : ℚ :=
  min (o1.pos.y + o1.size.y) (o2.pos.y + o2.size.y) - overlapY o1 o2

/-- The source's `idx = ty * texture_size.x as usize + tx` for one sprite at
the sample offset `(x, y)` from the intersection corner `(ox, oy)`, with
`tx = ((ox + x - pos.x) / size.x * texture_size.x) as usize` and `ty`
analogous. -/
def sampleIdx (o : Collidable) (ox oy : ℚ) (x y : ℕ) : ℕ :=
  texCoord (oy + (y : ℚ)) o.pos.y o.size.y o.texture_size.y *
      toUsize o.texture_size.x +
    texCoord (ox + (x : ℚ)) o.pos.x o.size.x o.texture_size.x

/-- One fine-phase sample of `check_collision` at offset `(x, y)` from the
intersection's top-left corner: map into each sprite's texture space, read
both mask bits (`mask[idx/8]` panics when out of bounds), and report whether
both bits are 1. -/
def sampleCollides (o1 o2 : Collidable) (m1 m2 : List ℕ) (x y : ℕ) :
    Except String Bool :=
  match m1.get? (sampleIdx o1 (overlapX o1 o2) (overlapY o1 o2) x y / 8) with
  | none => .error "index out of bounds"
  | some byte1 =>
    match m2.get? (sampleIdx o2 (overlapX o1 o2) (overlapY o1 o2) x y / 8) with
    | none => .error "index out of bounds"
    | some byte2 =>
      .ok ((((byte1 >>>
            (7 - sampleIdx o1 (overlapX o1 o2) (overlapY o1 o2) x y % 8))
          &&& 1) == 1)
        && (((byte2 >>>
            (7 - sampleIdx o2 (overlapX o1 o2) (overlapY o1 o2) x y % 8))
          &&& 1) == 1))

/-- Short-circuit scan of a list of sample coordinates: stop at the first
`true` (collision found) or the first panic; `false` when the list is
exhausted.  This is the wasm sequential loop's control flow. -/
def firstHit (f : ℕ → Except String Bool) : List ℕ → Except String Bool
  | [] => .ok false
  | a :: rest =>
    match f a with
    | .error e => .error e
    | .ok true => .ok true
    | .ok false => firstHit f rest

/-- `collision.rs::check_collision` (sequential/wasm path): broad-phase
bounding-box test when either mask is `None`; otherwise intersection guard,
then the strided fine-phase scan.  `skip_pixels = 0` makes Rust's
`step_by` panic. -/
def check_collision (obj1 obj2 : Collidable) (skip_pixels : ℕ) :
    Except String Bool :=
  match obj1.get_mask, obj2.get_mask with
  | some mask1, some mask2 =>
    if overlapW obj1 obj2 ≤ 0 ∨ overlapH obj1 obj2 ≤ 0 then .ok false
    else if skip_pixels = 0 then .error "step_by called with step 0"
    else
      firstHit
        (fun y => firstHit
          (fun x => sampleCollides obj1 obj2 mask1 mask2 x y)
          (stepByRange (toUsize (overlapW obj1 obj2)) skip_pixels))
        (stepByRange (toUsize (overlapH obj1 obj2)) skip_pixels)
  | _, _ =>
    .ok (decide (0 < overlapW obj1 obj2) && decide (0 < overlapH obj1 obj2))

/-- Is this outcome a normal (non-panicking) one? -/
def isOkB {α : Type} (e : Except String α) : Bool :=
  match e with
  | .ok _ => true
  | .error _ => false

/-- The boolean of a normal fine-phase sample outcome (`false` for a panic;
only used under a guard that excludes panics). -/
def okTrue (e : Except String Bool) : Bool :=
  match e with
  | .ok b => b
  | .error _ => false

/-- `collision.rs::check_collision` (rayon/native path).  Rayon's nested
`into_par_iter().any` over a pure predicate is deterministic and equals the
unordered existential over the same sample grid; when some sample panics and
a hit also exists the outcome is a race between the panic and the
short-circuit, modelled conservatively as a panic. -/
def check_collision_native (obj1 obj2 : Collidable) (skip_pixels : ℕ) :
    Except String Bool :=
  match obj1.get_mask, obj2.get_mask with
  | some mask1, some mask2 =>
    if overlapW obj1 obj2 ≤ 0 ∨ overlapH obj1 obj2 ≤ 0 then .ok false
    else if skip_pixels = 0 then .error "step_by called with step 0"
    else
      let ys := stepByRange (toUsize (overlapH obj1 obj2)) skip_pixels
      let xs := stepByRange (toUsize (overlapW obj1 obj2)) skip_pixels
      if ys.all (fun y => xs.all (fun x =>
          isOkB (sampleCollides obj1 obj2 mask1 mask2 x y))) then
        .ok (ys.any (fun y => xs.any (fun x =>
          okTrue (sampleCollides obj1 obj2 mask1 mask2 x y))))
      else .error "index out of bounds"
  | _, _ =>
    .ok (decide (0 < overlapW obj1 obj2) && decide (0 < overlapH obj1 obj2))

/-- Loop body shared by the pixel-writing pass of
`animated_image.rs::generate_mask`: set the bit when `alpha > 0`, clear it
otherwise. -/
def maskStep (px : List ℕ) (m : List ℕ) (i : ℕ) : List ℕ :=
  if 0 < px.getD (i * 4 + 3) 0 then setMaskBit m i else clearMaskBit m i

/-- Loop body of the pixel-writing pass of
`image_button.rs::generate_mask`: set the bit when `alpha > 0`, leave the
byte untouched otherwise. -/
def btnStep (px : List ℕ) (m : List ℕ) (i : ℕ) : List ℕ :=
  if 0 < px.getD (i * 4 + 3) 0 then setMaskBit m i else m

/-- The transparency pre-scan shared by the animated-image and button
builders: is some alpha byte < 255?  (The source breaks out of both loops at
the first find; `List.any` short-circuits the same way.) -/
def hasTransparency (px : List ℕ) (w h : ℕ) : Bool :=
  (List.range h).any (fun y => (List.range w).any (fun x =>
    decide (px.getD ((y * w + x) * 4 + 3) 0 < 255)))

/-- The bit-writing double loop of `animated_image.rs::generate_mask` over a
zero-initialised buffer of `(w*h + 7) / 8` bytes. -/
def writeMaskBits (px : List ℕ) (w h : ℕ) : List ℕ :=
  (List.range h).foldl
    (fun m y => (List.range w).foldl
      (fun m x => maskStep px m (y * w + x)) m)
    (List.replicate ((w * h + 7) / 8) 0)

/-- The bit-writing double loop of `image_button.rs::generate_mask`. -/
def writeMaskBitsBtn (px : List ℕ) (w h : ℕ) : List ℕ :=
  (List.range h).foldl
    (fun m y => (List.range w).foldl
      (fun m x => btnStep px m (y * w + x)) m)
    (List.replicate ((w * h + 7) / 8) 0)

/-- `animated_image.rs::generate_mask` after image decoding: length guard,
transparency pre-scan, then the bit-writing double loop. -/
def generate_mask (px : List ℕ) (w h : ℕ) : Option (List ℕ) :=
  if px.length ≠ w * h * 4 then none
  else if hasTransparency px w h then some (writeMaskBits px w h)
  else none

/-- `image_button.rs::generate_mask` after image decoding: identical to the
animated-image builder except that fully transparent pixels leave their
(already zero) bit untouched instead of clearing it. -/
def generate_mask_button (px : List ℕ) (w h : ℕ) : Option (List ℕ) :=
  if px.length ≠ w * h * 4 then none
  else if hasTransparency px w h then some (writeMaskBitsBtn px w h)
  else none

/-- Loop body of `images_obj.rs::generate_mask`: read `pixels[idx + 3]`
(this slice index panics when the buffer is too short — the source has no
length guard) and write the pixel's bit. -/
def objStep (px : List ℕ) (st : Except String (List ℕ)) (i : ℕ) :
    Except String (List ℕ) :=
  match st with
  | .error e => .error e
  | .ok m =>
    match px.get? (i * 4 + 3) with
    | none => .error "index out of bounds"
    | some alpha =>
      .ok (if 0 < alpha then setMaskBit m i else clearMaskBit m i)

/-- `images_obj.rs::generate_mask`: no length guard, no all-opaque
optimisation, return type `Vec<u8>` (never an Option); an out-of-bounds
pixel read panics, modelled as `Except.error`. -/
def generate_mask_images_obj (px : List ℕ) (w h : ℕ) :
    Except String (List ℕ) :=
  (List.range h).foldl
    (fun st y => (List.range w).foldl
      (fun st x => objStep px st (y * w + x)) st)
    (.ok (List.replicate ((w * h + 7) / 8) 0))

/-- The `AnimatedImage` state relevant to collision:
geometry, spritesheet layout and the two mask stores. -/
structure AnimatedImage where
  x : ℚ
  y : ℚ
  width : ℚ
  height : ℚ
  texW : ℕ
  texH : ℕ
  transparency_mask : Option (List ℕ)
  frame_masks : Option (List (List ℕ))
  cols : ℕ
  rows : ℕ
  current_frame : ℕ
  total_frames : ℕ
  frame_width : ℚ
  frame_height : ℚ

/-- `AnimatedImage::new` (spritesheet-grid constructor): the texture load is
modelled by passing the decoded RGBA buffer and its pixel dimensions;
`set_texture` computes the whole-sheet mask via `generate_mask`, and the
constructor stores `frame_masks = None`, `frame_width = texW / cols`,
`frame_height = texH / rows`, `total_frames = cols * rows`. -/
def AnimatedImage.new (texW texH : ℕ) (px : List ℕ) (x y width height : ℚ)
    (cols rows : ℕ) : AnimatedImage where
  x := x
  y := y
  width := width
  height := height
  texW := texW
  texH := texH
  transparency_mask := generate_mask px texW texH
  frame_masks := none
  cols := cols
  rows := rows
  current_frame := 0
  total_frames := cols * rows
  frame_width := (texW : ℚ) / (cols : ℚ)
  frame_height := (texH : ℚ) / (rows : ℚ)

/-- `AnimatedImage::texture_size`: the size of a single frame for
multi-frame animations, the whole texture otherwise. -/
def AnimatedImage.texture_size (a : AnimatedImage) : Vec2 :=
  if a.total_frames > 1 then ⟨a.frame_width, a.frame_height⟩
  else ⟨(a.texW : ℚ), (a.texH : ℚ)⟩

/-- `AnimatedImage::get_mask`: the current frame's mask when per-frame masks
exist (and apply), otherwise the global whole-texture mask. -/
def AnimatedImage.get_mask (a : AnimatedImage) : Option (List ℕ) :=
  match a.frame_masks with
  | some fms =>
    if a.total_frames > 1 ∧ a.current_frame < fms.length then
      some (fms.getD a.current_frame [])
    else a.transparency_mask
  | none => a.transparency_mask

/-- All pixel indices of a `w × h` image in the row-major order the
builders' double loops visit them. -/
def pixList (w h : ℕ) : List ℕ :=
  (List.range h).flatMap (fun y => (List.range w).map (fun x => y * w + x))

/-- Well-formedness of a sprite's mask against its reported texture size:
the texture size is a pair of positive naturals and the mask holds at least
`ceil(tw*th / 8)` bytes (the data-model invariant gives exactly that many). -/
def MaskFits (o : Collidable) (m : List ℕ) (tw th : ℕ) : Prop :=
  1 ≤ tw ∧ 1 ≤ th ∧ o.texture_size.x = (tw : ℚ) ∧ o.texture_size.y = (th : ℚ) ∧
  (tw * th + 7) / 8 ≤ m.length

/-- The row-major mask index the specification assigns to the sample at
offset `(x, y)` from the intersection corner `(ox, oy)`:
`floor((s - pos) / display_size * texture_pixel_size)` on each axis,
then `tex_y * tw + tex_x`. -/
def texIndexAt (o : Collidable) (tw th : ℕ) (ox oy : ℚ) (x y : ℕ) : ℕ :=
  (⌊(oy + (y : ℚ) - o.pos.y) / o.size.y * (th : ℚ)⌋).toNat * tw +
    (⌊(ox + (x : ℚ) - o.pos.x) / o.size.x * (tw : ℚ)⌋).toNat

/-- The specification's collision condition: some sample point of the
stride grid over the intersection maps, in each sprite's own texture space,
to a mask bit that is 1 in both masks. -/
def claimHit (o1 o2 : Collidable) (m1 m2 : List ℕ)
    (tw1 th1 tw2 th2 skip : ℕ) : Prop :=
  ∃ y, (y < toUsize (overlapH o1 o2) ∧ skip ∣ y) ∧
    ∃ x, (x < toUsize (overlapW o1 o2) ∧ skip ∣ x) ∧
      bitOf m1 (texIndexAt o1 tw1 th1 (overlapX o1 o2) (overlapY o1 o2) x y)
        = true ∧
      bitOf m2 (texIndexAt o2 tw2 th2 (overlapX o1 o2) (overlapY o1 o2) x y)
        = true

/-- A unit sprite whose single texture pixel is opaque (mask byte `0x80`). -/
def unitOpaque : Collidable := ⟨⟨0, 0⟩, ⟨1, 1⟩, ⟨1, 1⟩, some [128]⟩

/-- A unit sprite with no mask (fully opaque image). -/
def unitNoMask : Collidable := ⟨⟨0, 0⟩, ⟨1, 1⟩, ⟨1, 1⟩, none⟩

/-- A unit sprite whose single texture pixel is transparent (mask `0x00`). -/
def unitClear : Collidable := ⟨⟨0, 0⟩, ⟨1, 1⟩, ⟨1, 1⟩, some [0]⟩

/-- A unit opaque sprite placed at x = 5, away from the origin. -/
def farOpaque : Collidable := ⟨⟨5, 0⟩, ⟨1, 1⟩, ⟨1, 1⟩, some [128]⟩

/-- A unit opaque sprite shifted right by half a screen unit. -/
def halfOpaque : Collidable := ⟨⟨1/2, 0⟩, ⟨1, 1⟩, ⟨1, 1⟩, some [128]⟩

/-- A sprite whose mask is `Some` but empty — shorter than the
`ceil(tw*th/8)` bytes its `1 × 1` texture size calls for. -/
def shortMasked : Collidable := ⟨⟨0, 0⟩, ⟨1, 1⟩, ⟨1, 1⟩, some []⟩

/-- A 16×1 RGBA spritesheet buffer whose first pixel is transparent and
whose other 15 pixels are opaque white. -/
def sheetPx : List ℕ := [0, 0, 0, 0] ++ List.replicate 60 255

/-- The `AnimatedImage::new` result for the 16×1 spritesheet loaded as a
2-column, 1-row grid (two 8×1 frames). -/
def sheetAnim : AnimatedImage := AnimatedImage.new 16 1 sheetPx 0 0 32 8 2 1

/-! ### Byte and bit arithmetic -/

theorem shiftRight_and_one_beq (b k : ℕ) :
    (((b >>> k) &&& 1) == 1) = Nat.testBit b k := by
  rw [Bool.eq_iff_iff, beq_iff_eq, Nat.and_one_is_mod,
    Nat.shiftRight_eq_div_pow, Nat.testBit_to_div_mod, decide_eq_true_iff]

theorem bitOf_setMaskBit (m : List ℕ) (i j : ℕ) (hi : i / 8 < m.length) :
    bitOf (setMaskBit m i) j = if j = i then true else bitOf m j := by
  unfold bitOf setMaskBit
  rcases eq_or_ne (j / 8) (i / 8) with hdiv | hdiv
  · rw [hdiv, List.getD_eq_getElem?_getD, List.getElem?_set_self hi,
      Option.getD_some, Nat.one_shiftLeft, Nat.testBit_or, Nat.testBit_two_pow]
    rcases eq_or_ne j i with hji | hji
    · subst hji; simp
    · have hne : (7 - i % 8) ≠ (7 - j % 8) := by omega
      rw [if_neg hji, decide_eq_false hne, Bool.or_false,
        List.getD_eq_getElem?_getD]
  · have hji : j ≠ i := by omega
    rw [if_neg hji, List.getD_eq_getElem?_getD,
      List.getElem?_set_ne (Ne.symm hdiv), List.getD_eq_getElem?_getD]

theorem bitOf_clearMaskBit (m : List ℕ) (i j : ℕ) (hi : i / 8 < m.length) :
    bitOf (clearMaskBit m i) j = if j = i then false else bitOf m j := by
  unfold bitOf clearMaskBit
  rcases eq_or_ne (j / 8) (i / 8) with hdiv | hdiv
  · rw [hdiv, List.getD_eq_getElem?_getD, List.getElem?_set_self hi,
      Option.getD_some, Nat.one_shiftLeft, Nat.testBit_and, Nat.testBit_xor]
    have h255 : (255 : ℕ) = 2 ^ 8 - 1 := by norm_num
    rw [h255, Nat.testBit_two_pow_sub_one, Nat.testBit_two_pow]
    have hlt : 7 - j % 8 < 8 := by omega
    rcases eq_or_ne j i with hji | hji
    · subst hji; simp [decide_eq_true hlt]
    · have hne : (7 - i % 8) ≠ (7 - j % 8) := by omega
      rw [if_neg hji, decide_eq_true hlt, decide_eq_false hne,
        List.getD_eq_getElem?_getD]
      simp
  · have hji : j ≠ i := by omega
    rw [if_neg hji, List.getD_eq_getElem?_getD,
      List.getElem?_set_ne (Ne.symm hdiv), List.getD_eq_getElem?_getD]

theorem length_maskStep (px m : List ℕ) (i : ℕ) :
    (maskStep px m i).length = m.length := by
  unfold maskStep setMaskBit clearMaskBit
  split <;> rw [List.length_set]

theorem length_btnStep (px m : List ℕ) (i : ℕ) :
    (btnStep px m i).length = m.length := by
  unfold btnStep setMaskBit
  split
  · rw [List.length_set]
  · rfl

theorem bitOf_maskStep (px m : List ℕ) (i j : ℕ) (hi : i / 8 < m.length) :
    bitOf (maskStep px m i) j =
      if j = i then decide (0 < px.getD (i * 4 + 3) 0) else bitOf m j := by
  unfold maskStep
  rcases Nat.lt_or_ge 0 (px.getD (i * 4 + 3) 0) with ha | ha
  · rw [if_pos ha, bitOf_setMaskBit m i j hi, decide_eq_true ha]
  · have ha0 : ¬ 0 < px.getD (i * 4 + 3) 0 := by omega
    rw [if_neg ha0, bitOf_clearMaskBit m i j hi, decide_eq_false ha0]

theorem bitOf_btnStep (px m : List ℕ) (i j : ℕ) (hi : i / 8 < m.length) :
    bitOf (btnStep px m i) j =
      if j = i then (decide (0 < px.getD (i * 4 + 3) 0) || bitOf m j)
      else bitOf m j := by
  unfold btnStep
  rcases Nat.lt_or_ge 0 (px.getD (i * 4 + 3) 0) with ha | ha
  · rw [if_pos ha, bitOf_setMaskBit m i j hi, decide_eq_true ha]
    rcases eq_or_ne j i with hji | hji
    · rw [if_pos hji, if_pos hji, Bool.true_or]
    · rw [if_neg hji, if_neg hji]
  · have ha0 : ¬ 0 < px.getD (i * 4 + 3) 0 := by omega
    rw [if_neg ha0, decide_eq_false ha0]
    rcases eq_or_ne j i with hji | hji
    · rw [if_pos hji, Bool.false_or]
    · rw [if_neg hji]

theorem length_foldl_maskStep (px : List ℕ) (l : List ℕ) :
    ∀ m : List ℕ, (l.foldl (maskStep px) m).length = m.length := by
  induction l with
  | nil => intro m; rfl
  | cons a t ih =>
    intro m
    rw [List.foldl_cons, ih (maskStep px m a), length_maskStep]

theorem length_foldl_btnStep (px : List ℕ) (l : List ℕ) :
    ∀ m : List ℕ, (l.foldl (btnStep px) m).length = m.length := by
  induction l with
  | nil => intro m; rfl
  | cons a t ih =>
    intro m
    rw [List.foldl_cons, ih (btnStep px m a), length_btnStep]

theorem bitOf_foldl_maskStep (px : List ℕ) (l : List ℕ) (j : ℕ) :
    ∀ m : List ℕ, (∀ i ∈ l, i / 8 < m.length) →
      bitOf (l.foldl (maskStep px) m) j =
        if j ∈ l then decide (0 < px.getD (j * 4 + 3) 0) else bitOf m j := by
  induction l with
  | nil => intro m _; simp
  | cons a t ih =>
    intro m hl
    have ha : a / 8 < m.length := hl a (List.mem_cons_self a t)
    have ht : ∀ i ∈ t, i / 8 < (maskStep px m a).length := by
      intro i hi
      rw [length_maskStep]
      exact hl i (List.mem_cons_of_mem a hi)
    rw [List.foldl_cons, ih (maskStep px m a) ht, bitOf_maskStep px m a j ha]
    by_cases hjt : j ∈ t
    · simp [hjt]
    · by_cases hja : j = a
      · subst hja
        simp [hjt]
      · simp [hjt, hja]

theorem bitOf_foldl_btnStep (px : List ℕ) (l : List ℕ) (j : ℕ) :
    ∀ m : List ℕ, (∀ i ∈ l, i / 8 < m.length) →
      bitOf (l.foldl (btnStep px) m) j =
        if j ∈ l then (decide (0 < px.getD (j * 4 + 3) 0) || bitOf m j)
        else bitOf m j := by
  induction l with
  | nil => intro m _; simp
  | cons a t ih =>
    intro m hl
    have ha : a / 8 < m.length := hl a (List.mem_cons_self a t)
    have ht : ∀ i ∈ t, i / 8 < (btnStep px m a).length := by
      intro i hi
      rw [length_btnStep]
      exact hl i (List.mem_cons_of_mem a hi)
    rw [List.foldl_cons, ih (btnStep px m a) ht, bitOf_btnStep px m a j ha]
    by_cases hjt : j ∈ t
    · by_cases hja : j = a
      · subst hja
        simp [hjt, Bool.or_assoc]
      · simp [hjt, hja]
    · by_cases hja : j = a
      · subst hja
        simp [hjt]
      · simp [hjt, hja]

/-! ### The double loop as a fold over the row-major pixel list -/

theorem rowmajor_lt (w h y x : ℕ) (hy : y < h) (hx : x < w) :
    y * w + x < w * h := by
  calc y * w + x < y * w + w := by omega
    _ = (y + 1) * w := by ring
    _ ≤ h * w := Nat.mul_le_mul_right w (by omega)
    _ = w * h := Nat.mul_comm h w

theorem foldl_nested_flatten {σ : Type} (F : σ → ℕ → σ) (w : ℕ) :
    ∀ (l : List ℕ) (s : σ),
      l.foldl (fun s y => (List.range w).foldl (fun s x => F s (y * w + x)) s) s
        = (l.flatMap (fun y =>
            (List.range w).map (fun x => y * w + x))).foldl F s := by
  intro l
  induction l with
  | nil => intro s; rfl
  | cons a t ih =>
    intro s
    rw [List.foldl_cons, List.flatMap_cons, List.foldl_append, List.foldl_map,
      ih]

theorem mem_pixList (w h j : ℕ) (hw : 1 ≤ w) :
    j ∈ pixList w h ↔ j < w * h := by
  unfold pixList
  rw [List.mem_flatMap]
  constructor
  · rintro ⟨y, hy, hj⟩
    rw [List.mem_range] at hy
    rw [List.mem_map] at hj
    rcases hj with ⟨x, hx, rfl⟩
    rw [List.mem_range] at hx
    exact rowmajor_lt w h y x hy hx
  · intro hj
    refine ⟨j / w, ?_, ?_⟩
    · rw [List.mem_range]
      rw [Nat.div_lt_iff_lt_mul (by omega : 0 < w), Nat.mul_comm h w]
      exact hj
    · rw [List.mem_map]
      refine ⟨j % w, ?_, ?_⟩
      · rw [List.mem_range]
        exact Nat.mod_lt j (by omega)
      · rw [Nat.mul_comm]
        exact Nat.div_add_mod j w

theorem bitOf_replicate_zero (L j : ℕ) :
    bitOf (List.replicate L 0) j = false := by
  unfold bitOf
  rw [List.getD_eq_getElem?_getD, List.getElem?_replicate]
  split <;> simp [Nat.zero_testBit]

theorem writeMaskBits_eq_flat (px : List ℕ) (w h : ℕ) :
    writeMaskBits px w h =
      (pixList w h).foldl (maskStep px)
        (List.replicate ((w * h + 7) / 8) 0) := by
  unfold writeMaskBits pixList
  exact foldl_nested_flatten (maskStep px) w (List.range h) _

theorem writeMaskBitsBtn_eq_flat (px : List ℕ) (w h : ℕ) :
    writeMaskBitsBtn px w h =
      (pixList w h).foldl (btnStep px)
        (List.replicate ((w * h + 7) / 8) 0) := by
  unfold writeMaskBitsBtn pixList
  exact foldl_nested_flatten (btnStep px) w (List.range h) _

theorem length_writeMaskBits (px : List ℕ) (w h : ℕ) :
    (writeMaskBits px w h).length = (w * h + 7) / 8 := by
  rw [writeMaskBits_eq_flat, length_foldl_maskStep, List.length_replicate]

theorem length_writeMaskBitsBtn (px : List ℕ) (w h : ℕ) :
    (writeMaskBitsBtn px w h).length = (w * h + 7) / 8 := by
  rw [writeMaskBitsBtn_eq_flat, length_foldl_btnStep, List.length_replicate]

theorem bitOf_writeMaskBits (px : List ℕ) (w h j : ℕ) (hw : 1 ≤ w)
    (hj : j < w * h) :
    bitOf (writeMaskBits px w h) j = decide (0 < px.getD (j * 4 + 3) 0) := by
  rw [writeMaskBits_eq_flat]
  rw [bitOf_foldl_maskStep px (pixList w h) j (List.replicate ((w * h + 7) / 8) 0)
    (by
      intro i hi
      rw [List.length_replicate]
      have : i < w * h := (mem_pixList w h i hw).mp hi
      omega)]
  rw [if_pos ((mem_pixList w h j hw).mpr hj)]

theorem bitOf_writeMaskBitsBtn (px : List ℕ) (w h j : ℕ) (hw : 1 ≤ w)
    (hj : j < w * h) :
    bitOf (writeMaskBitsBtn px w h) j =
      decide (0 < px.getD (j * 4 + 3) 0) := by
  rw [writeMaskBitsBtn_eq_flat]
  rw [bitOf_foldl_btnStep px (pixList w h) j (List.replicate ((w * h + 7) / 8) 0)
    (by
      intro i hi
      rw [List.length_replicate]
      have : i < w * h := (mem_pixList w h i hw).mp hi
      omega)]
  rw [if_pos ((mem_pixList w h j hw).mpr hj), bitOf_replicate_zero,
    Bool.or_false]

theorem hasTransparency_iff (px : List ℕ) (w h : ℕ) :
    hasTransparency px w h = true ↔
      ∃ y < h, ∃ x < w, px.getD ((y * w + x) * 4 + 3) 0 < 255 := by
  unfold hasTransparency
  simp [List.any_eq_true, List.mem_range]

theorem hasTransparency_eq_false (px : List ℕ) (w h : ℕ)
    (hop : ∀ i < w * h, px.getD (i * 4 + 3) 0 = 255) :
    hasTransparency px w h = false := by
  rw [Bool.eq_false_iff]
  intro htr
  rcases (hasTransparency_iff px w h).mp htr with ⟨y, hy, x, hx, hlt⟩
  have hin : y * w + x < w * h := rowmajor_lt w h y x hy hx
  rw [hop _ hin] at hlt
  omega

/-! ### The images_obj builder: success and panic conditions -/

theorem pixList_lt (w h j : ℕ) (hj : j ∈ pixList w h) : j < w * h := by
  unfold pixList at hj
  rw [List.mem_flatMap] at hj
  rcases hj with ⟨y, hy, hjm⟩
  rw [List.mem_range] at hy
  rw [List.mem_map] at hjm
  rcases hjm with ⟨x, hx, rfl⟩
  rw [List.mem_range] at hx
  exact rowmajor_lt w h y x hy hx

theorem foldl_objStep_error (px : List ℕ) (l : List ℕ) (e : String) :
    l.foldl (objStep px) (.error e) = .error e := by
  induction l with
  | nil => rfl
  | cons a t ih =>
    rw [List.foldl_cons]
    exact ih

theorem foldl_objStep_ok_of_reads (px : List ℕ) (l : List ℕ) :
    ∀ m : List ℕ, (∀ i ∈ l, i * 4 + 3 < px.length) →
      isOkB (l.foldl (objStep px) (.ok m)) = true := by
  induction l with
  | nil => intro m _; rfl
  | cons a t ih =>
    intro m hl
    have ha : a * 4 + 3 < px.length := hl a (List.mem_cons_self a t)
    obtain ⟨v, hv⟩ : ∃ v, px.get? (a * 4 + 3) = some v := by
      rw [List.get?_eq_getElem?]
      exact ⟨_, List.getElem?_eq_getElem ha⟩
    have hstep : objStep px (.ok m) a =
        .ok (if 0 < v then setMaskBit m a else clearMaskBit m a) := by
      unfold objStep
      rw [hv]
    rw [List.foldl_cons, hstep]
    exact ih _ (fun i hi => hl i (List.mem_cons_of_mem a hi))

theorem foldl_objStep_error_of_bad_read (px : List ℕ) (l : List ℕ) :
    ∀ m : List ℕ, (∃ i ∈ l, px.length ≤ i * 4 + 3) →
      l.foldl (objStep px) (.ok m) = .error "index out of bounds" := by
  induction l with
  | nil =>
    intro m hbad
    rcases hbad with ⟨i, hi, _⟩
    exact absurd hi (List.not_mem_nil i)
  | cons a t ih =>
    intro m hbad
    rw [List.foldl_cons]
    by_cases hba : px.length ≤ a * 4 + 3
    · have hstep : objStep px (.ok m) a = .error "index out of bounds" := by
        unfold objStep
        rw [List.get?_eq_getElem?, List.getElem?_eq_none hba]
      rw [hstep, foldl_objStep_error]
    · push_neg at hba
      obtain ⟨v, hv⟩ : ∃ v, px.get? (a * 4 + 3) = some v := by
        rw [List.get?_eq_getElem?]
        exact ⟨_, List.getElem?_eq_getElem hba⟩
      have hstep : objStep px (.ok m) a =
          .ok (if 0 < v then setMaskBit m a else clearMaskBit m a) := by
        unfold objStep
        rw [hv]
      rw [hstep]
      apply ih
      rcases hbad with ⟨i, hi, hb⟩
      rcases List.mem_cons.mp hi with rfl | hit
      · omega
      · exact ⟨i, hit, hb⟩

theorem gmObj_eq_flat (px : List ℕ) (w h : ℕ) :
    generate_mask_images_obj px w h =
      (pixList w h).foldl (objStep px)
        (.ok (List.replicate ((w * h + 7) / 8) 0)) := by
  unfold generate_mask_images_obj pixList
  exact foldl_nested_flatten (objStep px) w (List.range h) _

/-! ### Claim theorems for the mask builders -/

/-- C2: for a `w × h` RGBA buffer (`w, h ≥ 1`, length `w*h*4`) with at least
one alpha byte below 255, the animated-image and button mask builders return
`Some` mask of exactly `ceil(w*h/8)` bytes in which the MSB-first row-major
bit of pixel `(x, y)` is 1 exactly when that pixel's alpha byte is
positive (so an all-transparent image yields an all-zero mask, not an
error). -/
theorem claim_C2 (w h : ℕ) (px : List ℕ) (hw : 1 ≤ w) (hh : 1 ≤ h)
    (hlen : px.length = w * h * 4)
    (htr : ∃ y < h, ∃ x < w, px.getD ((y * w + x) * 4 + 3) 0 < 255) :
    generate_mask px w h = some (writeMaskBits px w h) ∧
    generate_mask_button px w h = some (writeMaskBitsBtn px w h) ∧
    (writeMaskBits px w h).length = (w * h + 7) / 8 ∧
    (writeMaskBitsBtn px w h).length = (w * h + 7) / 8 ∧
    ∀ y < h, ∀ x < w,
      (bitOf (writeMaskBits px w h) (y * w + x) = true ↔
        0 < px.getD ((y * w + x) * 4 + 3) 0) ∧
      (bitOf (writeMaskBitsBtn px w h) (y * w + x) = true ↔
        0 < px.getD ((y * w + x) * 4 + 3) 0) := by
  have htrb : hasTransparency px w h = true :=
    (hasTransparency_iff px w h).mpr htr
  refine ⟨?_, ?_, length_writeMaskBits px w h, length_writeMaskBitsBtn px w h,
    ?_⟩
  · unfold generate_mask
    rw [if_neg (not_not_intro hlen), htrb]
    rfl
  · unfold generate_mask_button
    rw [if_neg (not_not_intro hlen), htrb]
    rfl
  · intro y hy x hx
    have hin : y * w + x < w * h := rowmajor_lt w h y x hy hx
    constructor
    · rw [bitOf_writeMaskBits px w h _ hw hin]
      exact decide_eq_true_iff
    · rw [bitOf_writeMaskBitsBtn px w h _ hw hin]
      exact decide_eq_true_iff

theorem claim_C2_witness :
    (([0, 0, 0, 0] : List ℕ).length = 1 * 1 * 4) ∧
    (generate_mask [0, 0, 0, 0] 1 1 = some (writeMaskBits [0, 0, 0, 0] 1 1) ∧
     generate_mask_button [0, 0, 0, 0] 1 1 =
       some (writeMaskBitsBtn [0, 0, 0, 0] 1 1) ∧
     (writeMaskBits [0, 0, 0, 0] 1 1).length = (1 * 1 + 7) / 8 ∧
     (writeMaskBitsBtn [0, 0, 0, 0] 1 1).length = (1 * 1 + 7) / 8 ∧
     ∀ y < 1, ∀ x < 1,
       (bitOf (writeMaskBits [0, 0, 0, 0] 1 1) (y * 1 + x) = true ↔
         0 < ([0, 0, 0, 0] : List ℕ).getD ((y * 1 + x) * 4 + 3) 0) ∧
       (bitOf (writeMaskBitsBtn [0, 0, 0, 0] 1 1) (y * 1 + x) = true ↔
         0 < ([0, 0, 0, 0] : List ℕ).getD ((y * 1 + x) * 4 + 3) 0)) :=
  ⟨rfl, claim_C2 1 1 [0, 0, 0, 0] (le_refl 1) (le_refl 1) rfl
    ⟨0, by omega, 0, by omega, by decide⟩⟩

/-- C5 counterexample: on an all-opaque 1×1 RGBA image the images_obj
builder does not return "no mask" — it cannot (its return type is a bare
byte vector) and it returns the all-ones one-pixel mask `[0x80]`. -/
theorem claim_C5_cex :
    generate_mask_images_obj [255, 255, 255, 255] 1 1 = .ok [128] := by rfl

/-- C5 as amended: on an all-opaque RGBA buffer the animated-image and
button builders return `None`, while the images_obj builder always builds
and returns a mask (it never signals "no mask"). -/
theorem claim_C5_amended (w h : ℕ) (px : List ℕ)
    (hlen : px.length = w * h * 4)
    (hop : ∀ i < w * h, px.getD (i * 4 + 3) 0 = 255) :
    generate_mask px w h = none ∧ generate_mask_button px w h = none ∧
    isOkB (generate_mask_images_obj px w h) = true := by
  have hfalse := hasTransparency_eq_false px w h hop
  refine ⟨?_, ?_, ?_⟩
  · unfold generate_mask
    rw [if_neg (not_not_intro hlen), hfalse]
    rfl
  · unfold generate_mask_button
    rw [if_neg (not_not_intro hlen), hfalse]
    rfl
  · rw [gmObj_eq_flat]
    apply foldl_objStep_ok_of_reads
    intro i hi
    have : i < w * h := pixList_lt w h i hi
    omega

theorem claim_C5_amended_witness :
    (([255, 255, 255, 255] : List ℕ).length = 1 * 1 * 4) ∧
    (generate_mask [255, 255, 255, 255] 1 1 = none ∧
     generate_mask_button [255, 255, 255, 255] 1 1 = none ∧
     isOkB (generate_mask_images_obj [255, 255, 255, 255] 1 1) = true) :=
  ⟨rfl, claim_C5_amended 1 1 [255, 255, 255, 255] rfl (by decide)⟩

/-- C6 counterexample: on a 1×1 RGB buffer (length 3, no alpha channel) the
images_obj builder does not return `None` without panicking — it has no
length guard and its pixel read at index 3 goes out of bounds (a panic). -/
theorem claim_C6_cex :
    generate_mask_images_obj [0, 0, 0] 1 1 = .error "index out of bounds" := by
  rfl

/-- C6 as amended: on a buffer whose length is not `w*h*4` the
animated-image and button builders return `None` immediately; the
images_obj builder has no length guard, and whenever the buffer is shorter
than `w*h*4` (e.g. RGB data) and there is at least one pixel, its unchecked
pixel read panics with an out-of-bounds index. -/
theorem claim_C6_amended (w h : ℕ) (px : List ℕ)
    (hlen : px.length ≠ w * h * 4) :
    generate_mask px w h = none ∧ generate_mask_button px w h = none ∧
    (px.length < w * h * 4 → 1 ≤ w * h →
      generate_mask_images_obj px w h = .error "index out of bounds") := by
  refine ⟨?_, ?_, ?_⟩
  · unfold generate_mask
    rw [if_pos hlen]
  · unfold generate_mask_button
    rw [if_pos hlen]
  · intro hshort hpos
    rw [gmObj_eq_flat]
    apply foldl_objStep_error_of_bad_read
    have hw : 0 < w := by
      rcases Nat.eq_zero_or_pos w with rfl | hw
      · rw [Nat.zero_mul] at hpos
        omega
      · exact hw
    refine ⟨w * h - 1, (mem_pixList w h _ (by omega)).mpr (by omega), by omega⟩

theorem claim_C6_amended_witness :
    (([0, 0, 0] : List ℕ).length ≠ 1 * 1 * 4) ∧
    (generate_mask [0, 0, 0] 1 1 = none ∧
     generate_mask_button [0, 0, 0] 1 1 = none ∧
     (([0, 0, 0] : List ℕ).length < 1 * 1 * 4 → 1 ≤ 1 * 1 →
       generate_mask_images_obj [0, 0, 0] 1 1 =
         .error "index out of bounds")) :=
  ⟨by decide, claim_C6_amended 1 1 [0, 0, 0] (by decide)⟩

/-! ### Fine-phase geometry and in-bounds lemmas -/

theorem toUsize_natCast (n : ℕ) : toUsize (n : ℚ) = n := by
  unfold toUsize
  rw [Int.floor_natCast, Int.toNat_natCast]

theorem cast_lt_of_lt_toUsize (q : ℚ) (x : ℕ) (hx : x < toUsize q) :
    (x : ℚ) < q := by
  unfold toUsize at hx
  have h1 : (x : ℤ) < ⌊q⌋ := by omega
  have h2 : ((x : ℤ) : ℚ) + 1 ≤ (⌊q⌋ : ℚ) := by
    exact_mod_cast Int.add_one_le_iff.mpr h1
  have h3 := Int.floor_le q
  push_cast at h2
  linarith

theorem texCoord_lt (sp p s : ℚ) (t : ℕ) (ht : 1 ≤ t) (h0 : p ≤ sp)
    (h1 : sp < p + s) : texCoord sp p s (t : ℚ) < t := by
  unfold texCoord toUsize
  have hs : 0 < s := by linarith
  have hr1 : (sp - p) / s < 1 := (div_lt_one hs).mpr (by linarith)
  have htq1 : (1 : ℚ) ≤ (t : ℚ) := by exact_mod_cast ht
  have hmul : (sp - p) / s * (t : ℚ) < (t : ℚ) := by
    calc (sp - p) / s * (t : ℚ) < 1 * (t : ℚ) :=
          mul_lt_mul_of_pos_right hr1 (by linarith)
      _ = (t : ℚ) := one_mul _
  have hfl : ⌊(sp - p) / s * (t : ℚ)⌋ < (t : ℤ) :=
    Int.floor_lt.mpr (by exact_mod_cast hmul)
  omega

theorem sample_bounds_x (o1 o2 : Collidable) (x : ℕ)
    (hx : (x : ℚ) < overlapW o1 o2) :
    (o1.pos.x ≤ overlapX o1 o2 + x ∧
     overlapX o1 o2 + x < o1.pos.x + o1.size.x) ∧
    (o2.pos.x ≤ overlapX o1 o2 + x ∧
     overlapX o1 o2 + x < o2.pos.x + o2.size.x) := by
  unfold overlapW overlapX at *
  have hx0 : (0 : ℚ) ≤ (x : ℚ) := Nat.cast_nonneg x
  have h1 := le_max_left o1.pos.x o2.pos.x
  have h2 := le_max_right o1.pos.x o2.pos.x
  have h3 := min_le_left (o1.pos.x + o1.size.x) (o2.pos.x + o2.size.x)
  have h4 := min_le_right (o1.pos.x + o1.size.x) (o2.pos.x + o2.size.x)
  refine ⟨⟨by linarith, by linarith⟩, ⟨by linarith, by linarith⟩⟩

theorem sample_bounds_y (o1 o2 : Collidable) (y : ℕ)
    (hy : (y : ℚ) < overlapH o1 o2) :
    (o1.pos.y ≤ overlapY o1 o2 + y ∧
     overlapY o1 o2 + y < o1.pos.y + o1.size.y) ∧
    (o2.pos.y ≤ overlapY o1 o2 + y ∧
     overlapY o1 o2 + y < o2.pos.y + o2.size.y) := by
  unfold overlapH overlapY at *
  have hy0 : (0 : ℚ) ≤ (y : ℚ) := Nat.cast_nonneg y
  have h1 := le_max_left o1.pos.y o2.pos.y
  have h2 := le_max_right o1.pos.y o2.pos.y
  have h3 := min_le_left (o1.pos.y + o1.size.y) (o2.pos.y + o2.size.y)
  have h4 := min_le_right (o1.pos.y + o1.size.y) (o2.pos.y + o2.size.y)
  refine ⟨⟨by linarith, by linarith⟩, ⟨by linarith, by linarith⟩⟩

theorem sampleIdx_eq_texIndexAt (o : Collidable) (tw th : ℕ) (ox oy : ℚ)
    (hox : o.texture_size.x = (tw : ℚ)) (hoy : o.texture_size.y = (th : ℚ))
    (x y : ℕ) :
    sampleIdx o ox oy x y = texIndexAt o tw th ox oy x y := by
  unfold sampleIdx texIndexAt texCoord toUsize
  rw [hox, hoy, Int.floor_natCast, Int.toNat_natCast]

theorem texIndexAt_lt (o : Collidable) (tw th : ℕ) (ox oy : ℚ)
    (htw : 1 ≤ tw) (hth : 1 ≤ th) (x y : ℕ)
    (hbx : o.pos.x ≤ ox + x ∧ ox + x < o.pos.x + o.size.x)
    (hby : o.pos.y ≤ oy + y ∧ oy + y < o.pos.y + o.size.y) :
    texIndexAt o tw th ox oy x y < tw * th := by
  have hx : (⌊(ox + (x : ℚ) - o.pos.x) / o.size.x * (tw : ℚ)⌋).toNat < tw :=
    texCoord_lt (ox + (x : ℚ)) o.pos.x o.size.x tw htw hbx.1 hbx.2
  have hy : (⌊(oy + (y : ℚ) - o.pos.y) / o.size.y * (th : ℚ)⌋).toNat < th :=
    texCoord_lt (oy + (y : ℚ)) o.pos.y o.size.y th hth hby.1 hby.2
  unfold texIndexAt
  exact rowmajor_lt tw th _ _ hy hx

theorem mem_stepByRange (n s x : ℕ) :
    x ∈ stepByRange n s ↔ x < n ∧ x % s = 0 := by
  unfold stepByRange
  rw [List.mem_filter, List.mem_range]
  simp

theorem firstHit_eq_ok_any (f : ℕ → Except String Bool) (g : ℕ → Bool) :
    ∀ l : List ℕ, (∀ a ∈ l, f a = .ok (g a)) →
      firstHit f l = .ok (l.any g) := by
  intro l
  induction l with
  | nil => intro _; rfl
  | cons a t ih =>
    intro hmem
    have ha : f a = .ok (g a) := hmem a (List.mem_cons_self a t)
    have hrest : firstHit f t = .ok (t.any g) :=
      ih (fun b hb => hmem b (List.mem_cons_of_mem a hb))
    cases hg : g a with
    | true => simp [firstHit, ha, hg, List.any_cons]
    | false => simp [firstHit, ha, hg, List.any_cons, hrest]

theorem firstHit_const_false (l : List ℕ) :
    firstHit (fun _ => .ok false) l = .ok false := by
  induction l with
  | nil => rfl
  | cons a t ih => simp [firstHit, ih]

/-! ### The fine phase as an existential over the sample grid -/

theorem check_collision_fine (o1 o2 : Collidable) (m1 m2 : List ℕ)
    (hm1 : o1.get_mask = some m1) (hm2 : o2.get_mask = some m2)
    (hw : 0 < overlapW o1 o2) (hh : 0 < overlapH o1 o2) (skip : ℕ)
    (hskip : skip ≠ 0) :
    check_collision o1 o2 skip =
      firstHit (fun y => firstHit (fun x => sampleCollides o1 o2 m1 m2 x y)
        (stepByRange (toUsize (overlapW o1 o2)) skip))
        (stepByRange (toUsize (overlapH o1 o2)) skip) := by
  have hg : ¬ (overlapW o1 o2 ≤ 0 ∨ overlapH o1 o2 ≤ 0) := by
    push_neg
    exact ⟨hw, hh⟩
  unfold check_collision
  rw [hm1, hm2]
  simp only [if_neg hg, if_neg hskip]

theorem sampleCollides_eq (o1 o2 : Collidable) (m1 m2 : List ℕ)
    (tw1 th1 tw2 th2 : ℕ)
    (hf1 : MaskFits o1 m1 tw1 th1) (hf2 : MaskFits o2 m2 tw2 th2)
    (x y : ℕ) (hx : (x : ℚ) < overlapW o1 o2)
    (hy : (y : ℚ) < overlapH o1 o2) :
    sampleCollides o1 o2 m1 m2 x y =
      .ok (bitOf m1
            (texIndexAt o1 tw1 th1 (overlapX o1 o2) (overlapY o1 o2) x y)
        && bitOf m2
            (texIndexAt o2 tw2 th2 (overlapX o1 o2) (overlapY o1 o2) x y)) := by
  obtain ⟨htw1, hth1, hox1, hoy1, hlen1⟩ := hf1
  obtain ⟨htw2, hth2, hox2, hoy2, hlen2⟩ := hf2
  obtain ⟨hb1x, hb2x⟩ := sample_bounds_x o1 o2 x hx
  obtain ⟨hb1y, hb2y⟩ := sample_bounds_y o1 o2 y hy
  have he1 : sampleIdx o1 (overlapX o1 o2) (overlapY o1 o2) x y
      = texIndexAt o1 tw1 th1 (overlapX o1 o2) (overlapY o1 o2) x y :=
    sampleIdx_eq_texIndexAt o1 tw1 th1 _ _ hox1 hoy1 x y
  have he2 : sampleIdx o2 (overlapX o1 o2) (overlapY o1 o2) x y
      = texIndexAt o2 tw2 th2 (overlapX o1 o2) (overlapY o1 o2) x y :=
    sampleIdx_eq_texIndexAt o2 tw2 th2 _ _ hox2 hoy2 x y
  have hi1 : texIndexAt o1 tw1 th1 (overlapX o1 o2) (overlapY o1 o2) x y
      < tw1 * th1 :=
    texIndexAt_lt o1 tw1 th1 _ _ htw1 hth1 x y hb1x hb1y
  have hi2 : texIndexAt o2 tw2 th2 (overlapX o1 o2) (overlapY o1 o2) x y
      < tw2 * th2 :=
    texIndexAt_lt o2 tw2 th2 _ _ htw2 hth2 x y hb2x hb2y
  have hd1 : texIndexAt o1 tw1 th1 (overlapX o1 o2) (overlapY o1 o2) x y / 8
      < m1.length := by omega
  have hd2 : texIndexAt o2 tw2 th2 (overlapX o1 o2) (overlapY o1 o2) x y / 8
      < m2.length := by omega
  have hg1 : m1.get?
      (texIndexAt o1 tw1 th1 (overlapX o1 o2) (overlapY o1 o2) x y / 8)
      = some (m1.getD
        (texIndexAt o1 tw1 th1 (overlapX o1 o2) (overlapY o1 o2) x y / 8) 0) := by
    rw [List.get?_eq_getElem?, List.getElem?_eq_getElem hd1,
      List.getD_eq_getElem?_getD, List.getElem?_eq_getElem hd1, Option.getD_some]
  have hg2 : m2.get?
      (texIndexAt o2 tw2 th2 (overlapX o1 o2) (overlapY o1 o2) x y / 8)
      = some (m2.getD
        (texIndexAt o2 tw2 th2 (overlapX o1 o2) (overlapY o1 o2) x y / 8) 0) := by
    rw [List.get?_eq_getElem?, List.getElem?_eq_getElem hd2,
      List.getD_eq_getElem?_getD, List.getElem?_eq_getElem hd2, Option.getD_some]
  unfold sampleCollides
  rw [he1, he2, hg1, hg2]
  simp only []
  rw [shiftRight_and_one_beq, shiftRight_and_one_beq]
  unfold bitOf
  rfl

/-- C1: with both masks present, a positive screen-space intersection, and
stride ≥ 1, `check_collision` returns true exactly when some stride-grid
sample point maps (via the independent per-sprite floor formulas) to a
row-major MSB-first bit that is 1 in both masks, and returns false
otherwise.  The texture sizes are positive pixel counts and each mask holds
at least the `ceil(tw*th/8)` bytes of the data-model invariant. -/
theorem claim_C1 (o1 o2 : Collidable) (m1 m2 : List ℕ)
    (tw1 th1 tw2 th2 skip : ℕ)
    (hm1 : o1.get_mask = some m1) (hm2 : o2.get_mask = some m2)
    (hf1 : MaskFits o1 m1 tw1 th1) (hf2 : MaskFits o2 m2 tw2 th2)
    (hw : 0 < overlapW o1 o2) (hh : 0 < overlapH o1 o2) (hskip : 1 ≤ skip) :
    (check_collision o1 o2 skip = .ok true ↔
      claimHit o1 o2 m1 m2 tw1 th1 tw2 th2 skip) ∧
    (¬ claimHit o1 o2 m1 m2 tw1 th1 tw2 th2 skip →
      check_collision o1 o2 skip = .ok false) := by
  have hskip0 : skip ≠ 0 := by omega
  have hfine := check_collision_fine o1 o2 m1 m2 hm1 hm2 hw hh skip hskip0
  have hrow : ∀ yy ∈ stepByRange (toUsize (overlapH o1 o2)) skip,
      firstHit (fun x => sampleCollides o1 o2 m1 m2 x yy)
        (stepByRange (toUsize (overlapW o1 o2)) skip) =
      .ok ((stepByRange (toUsize (overlapW o1 o2)) skip).any (fun xx =>
        bitOf m1 (texIndexAt o1 tw1 th1 (overlapX o1 o2) (overlapY o1 o2) xx yy)
        && bitOf m2
          (texIndexAt o2 tw2 th2 (overlapX o1 o2) (overlapY o1 o2) xx yy))) := by
    intro yy hys
    apply firstHit_eq_ok_any
    intro xx hxs
    have hxlt : (xx : ℚ) < overlapW o1 o2 :=
      cast_lt_of_lt_toUsize _ _ ((mem_stepByRange _ _ _).mp hxs).1
    have hylt : (yy : ℚ) < overlapH o1 o2 :=
      cast_lt_of_lt_toUsize _ _ ((mem_stepByRange _ _ _).mp hys).1
    exact sampleCollides_eq o1 o2 m1 m2 tw1 th1 tw2 th2 hf1 hf2 xx yy hxlt hylt
  have hall : check_collision o1 o2 skip =
      .ok ((stepByRange (toUsize (overlapH o1 o2)) skip).any (fun yy =>
        (stepByRange (toUsize (overlapW o1 o2)) skip).any (fun xx =>
          bitOf m1
            (texIndexAt o1 tw1 th1 (overlapX o1 o2) (overlapY o1 o2) xx yy)
          && bitOf m2
            (texIndexAt o2 tw2 th2 (overlapX o1 o2) (overlapY o1 o2) xx yy)))) := by
    rw [hfine]
    exact firstHit_eq_ok_any _ _ _ hrow
  have hBiff : ((stepByRange (toUsize (overlapH o1 o2)) skip).any (fun yy =>
      (stepByRange (toUsize (overlapW o1 o2)) skip).any (fun xx =>
        bitOf m1 (texIndexAt o1 tw1 th1 (overlapX o1 o2) (overlapY o1 o2) xx yy)
        && bitOf m2
          (texIndexAt o2 tw2 th2 (overlapX o1 o2) (overlapY o1 o2) xx yy)))
        = true) ↔
      claimHit o1 o2 m1 m2 tw1 th1 tw2 th2 skip := by
    unfold claimHit
    rw [List.any_eq_true]
    constructor
    · rintro ⟨yy, hys, hrow2⟩
      rw [List.any_eq_true] at hrow2
      rcases hrow2 with ⟨xx, hxs, hgx⟩
      rw [Bool.and_eq_true] at hgx
      rcases (mem_stepByRange _ _ yy).mp hys with ⟨hylt, hymod⟩
      rcases (mem_stepByRange _ _ xx).mp hxs with ⟨hxlt, hxmod⟩
      exact ⟨yy, ⟨hylt, Nat.dvd_iff_mod_eq_zero.mpr hymod⟩,
        xx, ⟨hxlt, Nat.dvd_iff_mod_eq_zero.mpr hxmod⟩, hgx.1, hgx.2⟩
    · rintro ⟨yy, ⟨hylt, hydvd⟩, xx, ⟨hxlt, hxdvd⟩, hbit1, hbit2⟩
      refine ⟨yy, (mem_stepByRange _ _ yy).mpr
        ⟨hylt, Nat.dvd_iff_mod_eq_zero.mp hydvd⟩, ?_⟩
      rw [List.any_eq_true]
      exact ⟨xx, (mem_stepByRange _ _ xx).mpr
        ⟨hxlt, Nat.dvd_iff_mod_eq_zero.mp hxdvd⟩,
        by rw [Bool.and_eq_true]; exact ⟨hbit1, hbit2⟩⟩
  constructor
  · rw [hall]
    constructor
    · intro hok
      have hB := Except.ok.inj hok
      exact hBiff.mp hB
    · intro hhit
      rw [hBiff.mpr hhit]
  · intro hnot
    rw [hall]
    have hBfalse : ((stepByRange (toUsize (overlapH o1 o2)) skip).any (fun yy =>
        (stepByRange (toUsize (overlapW o1 o2)) skip).any (fun xx =>
          bitOf m1
            (texIndexAt o1 tw1 th1 (overlapX o1 o2) (overlapY o1 o2) xx yy)
          && bitOf m2
            (texIndexAt o2 tw2 th2 (overlapX o1 o2) (overlapY o1 o2) xx yy))))
        = false := by
      cases hB : ((stepByRange (toUsize (overlapH o1 o2)) skip).any (fun yy =>
        (stepByRange (toUsize (overlapW o1 o2)) skip).any (fun xx =>
          bitOf m1
            (texIndexAt o1 tw1 th1 (overlapX o1 o2) (overlapY o1 o2) xx yy)
          && bitOf m2
            (texIndexAt o2 tw2 th2 (overlapX o1 o2) (overlapY o1 o2) xx yy))))
      · rfl
      · exact absurd (hBiff.mp hB) hnot
    rw [hBfalse]

theorem unitOpaque_overlapW : overlapW unitOpaque unitOpaque = 1 := by
  norm_num [overlapW, overlapX, unitOpaque]

theorem unitOpaque_overlapH : overlapH unitOpaque unitOpaque = 1 := by
  norm_num [overlapH, overlapY, unitOpaque]

theorem unitOpaque_fits : MaskFits unitOpaque [128] 1 1 := by
  unfold MaskFits
  refine ⟨le_refl 1, le_refl 1, ?_, ?_, by decide⟩ <;> norm_num [unitOpaque]

theorem claim_C1_witness :
    ((0 : ℚ) < overlapW unitOpaque unitOpaque ∧
     (0 : ℚ) < overlapH unitOpaque unitOpaque) ∧
    ((check_collision unitOpaque unitOpaque 1 = .ok true ↔
        claimHit unitOpaque unitOpaque [128] [128] 1 1 1 1 1) ∧
     (¬ claimHit unitOpaque unitOpaque [128] [128] 1 1 1 1 1 →
        check_collision unitOpaque unitOpaque 1 = .ok false)) :=
  ⟨⟨by rw [unitOpaque_overlapW]; norm_num,
    by rw [unitOpaque_overlapH]; norm_num⟩,
    claim_C1 unitOpaque unitOpaque [128] [128] 1 1 1 1 1 rfl rfl
      unitOpaque_fits unitOpaque_fits
      (by rw [unitOpaque_overlapW]; norm_num)
      (by rw [unitOpaque_overlapH]; norm_num) (le_refl 1)⟩

/-- C7: when the screen rectangles truly intersect (positive width and
height) and at least one sprite has no mask, `check_collision` returns true
(bounding-box fallback) for every stride, regardless of the other sprite's
mask contents. -/
theorem claim_C7 (o1 o2 : Collidable) (skip : ℕ)
    (hmask : o1.get_mask = none ∨ o2.get_mask = none)
    (hw : 0 < overlapW o1 o2) (hh : 0 < overlapH o1 o2) :
    check_collision o1 o2 skip = .ok true := by
  unfold check_collision
  rcases hmask with h | h
  · rw [h]
    cases o2.get_mask <;> simp [decide_eq_true hw, decide_eq_true hh]
  · rw [h]
    cases o1.get_mask <;> simp [decide_eq_true hw, decide_eq_true hh]

theorem unitClear_overlapW : overlapW unitNoMask unitClear = 1 := by
  norm_num [overlapW, overlapX, unitNoMask, unitClear]

theorem unitClear_overlapH : overlapH unitNoMask unitClear = 1 := by
  norm_num [overlapH, overlapY, unitNoMask, unitClear]

theorem claim_C7_witness :
    (unitNoMask.get_mask = none ∧ unitClear.get_mask = some [0] ∧
     (0 : ℚ) < overlapW unitNoMask unitClear ∧
     (0 : ℚ) < overlapH unitNoMask unitClear) ∧
    check_collision unitNoMask unitClear 3 = .ok true :=
  ⟨⟨rfl, rfl, by rw [unitClear_overlapW]; norm_num,
    by rw [unitClear_overlapH]; norm_num⟩,
   claim_C7 unitNoMask unitClear 3 (Or.inl rfl)
     (by rw [unitClear_overlapW]; norm_num)
     (by rw [unitClear_overlapH]; norm_num)⟩

/-- C8: when the screen-space intersection is degenerate (width or height
≤ 0, as happens in particular for a zero-size sprite), `check_collision`
returns false for every stride and mask combination; the fine phase is
never entered, so no fault is raised. -/
theorem claim_C8 (o1 o2 : Collidable) (skip : ℕ)
    (hdisj : overlapW o1 o2 ≤ 0 ∨ overlapH o1 o2 ≤ 0) :
    check_collision o1 o2 skip = .ok false := by
  have hbb : (decide (0 < overlapW o1 o2) && decide (0 < overlapH o1 o2))
      = false := by
    rcases hdisj with h | h
    · simp [decide_eq_false (not_lt.mpr h)]
    · simp [decide_eq_false (not_lt.mpr h)]
  unfold check_collision
  cases h1 : o1.get_mask with
  | none =>
    cases h2 : o2.get_mask <;> simp [hbb]
  | some m1 =>
    cases h2 : o2.get_mask with
    | none => simp [hbb]
    | some m2 => simp [if_pos hdisj]

theorem far_overlapW : overlapW unitOpaque farOpaque = -4 := by
  norm_num [overlapW, overlapX, unitOpaque, farOpaque]

theorem claim_C8_witness :
    (overlapW unitOpaque farOpaque ≤ 0 ∨ overlapH unitOpaque farOpaque ≤ 0) ∧
    check_collision unitOpaque farOpaque 1 = .ok false :=
  ⟨Or.inl (by rw [far_overlapW]; norm_num),
   claim_C8 unitOpaque farOpaque 1 (Or.inl (by rw [far_overlapW]; norm_num))⟩

/-- C10: with both masks present and a positive intersection thinner than
one screen unit on some axis, the truncated sample grid is empty and
`check_collision` returns false for every stride ≥ 1; the same geometry
with one mask removed returns true through the bounding-box fallback, so
sub-pixel overlaps are only detectable via the no-mask path. -/
theorem claim_C10 (o1 o2 : Collidable) (m1 m2 : List ℕ) (skip : ℕ)
    (hm1 : o1.get_mask = some m1) (hm2 : o2.get_mask = some m2)
    (hw : 0 < overlapW o1 o2) (hh : 0 < overlapH o1 o2)
    (hsub : overlapW o1 o2 < 1 ∨ overlapH o1 o2 < 1) (hskip : 1 ≤ skip) :
    check_collision o1 o2 skip = .ok false ∧
    check_collision { o1 with get_mask := none } o2 skip = .ok true := by
  constructor
  · rw [check_collision_fine o1 o2 m1 m2 hm1 hm2 hw hh skip (by omega)]
    rcases hsub with h | h
    · have hz : toUsize (overlapW o1 o2) = 0 := by
        unfold toUsize
        have hfl : ⌊overlapW o1 o2⌋ < (1 : ℤ) :=
          Int.floor_lt.mpr (by exact_mod_cast h)
        omega
      rw [hz]
      exact firstHit_const_false _
    · have hz : toUsize (overlapH o1 o2) = 0 := by
        unfold toUsize
        have hfl : ⌊overlapH o1 o2⌋ < (1 : ℤ) :=
          Int.floor_lt.mpr (by exact_mod_cast h)
        omega
      rw [hz]
      rfl
  · have hW : overlapW { o1 with get_mask := none } o2 = overlapW o1 o2 := rfl
    have hH : overlapH { o1 with get_mask := none } o2 = overlapH o1 o2 := rfl
    unfold check_collision
    cases o2.get_mask <;>
      simp [hW, hH, decide_eq_true hw, decide_eq_true hh]

theorem half_overlapW : overlapW unitOpaque halfOpaque = 1/2 := by
  norm_num [overlapW, overlapX, unitOpaque, halfOpaque]

theorem half_overlapH : overlapH unitOpaque halfOpaque = 1 := by
  norm_num [overlapH, overlapY, unitOpaque, halfOpaque]

theorem claim_C10_witness :
    ((0 : ℚ) < overlapW unitOpaque halfOpaque ∧
     overlapW unitOpaque halfOpaque < 1) ∧
    (check_collision unitOpaque halfOpaque 1 = .ok false ∧
     check_collision { unitOpaque with get_mask := none } halfOpaque 1 =
       .ok true) :=
  ⟨⟨by rw [half_overlapW]; norm_num, by rw [half_overlapW]; norm_num⟩,
   claim_C10 unitOpaque halfOpaque [128] [128] 1 rfl rfl
     (by rw [half_overlapW]; norm_num)
     (by rw [half_overlapH]; norm_num)
     (Or.inl (by rw [half_overlapW]; norm_num)) (le_refl 1)⟩

/-- C9: the rayon (parallel) form of `check_collision` returns the same
boolean as the sequential (wasm) form on the same inputs, for every stride
≥ 1, whenever each sprite's texture size is a positive pixel count and any
present mask holds at least the `ceil(tw*th/8)` bytes of the data-model
invariant (so no sample panics and both outcomes are total booleans). -/
theorem claim_C9 (o1 o2 : Collidable) (skip : ℕ) (hskip : 1 ≤ skip)
    (hwf1 : ∀ m, o1.get_mask = some m → ∃ tw th, MaskFits o1 m tw th)
    (hwf2 : ∀ m, o2.get_mask = some m → ∃ tw th, MaskFits o2 m tw th) :
    check_collision_native o1 o2 skip = check_collision o1 o2 skip := by
  cases h1 : o1.get_mask with
  | none =>
    unfold check_collision check_collision_native
    rw [h1]
  | some m1 =>
    cases h2 : o2.get_mask with
    | none =>
      unfold check_collision check_collision_native
      rw [h1, h2]
    | some m2 =>
      obtain ⟨tw1, th1, hf1⟩ := hwf1 m1 h1
      obtain ⟨tw2, th2, hf2⟩ := hwf2 m2 h2
      by_cases hg : overlapW o1 o2 ≤ 0 ∨ overlapH o1 o2 ≤ 0
      · unfold check_collision check_collision_native
        rw [h1, h2]
        simp only [if_pos hg]
      · push_neg at hg
        have hsampval : ∀ yy ∈ stepByRange (toUsize (overlapH o1 o2)) skip,
            ∀ xx ∈ stepByRange (toUsize (overlapW o1 o2)) skip,
            sampleCollides o1 o2 m1 m2 xx yy =
              .ok (okTrue (sampleCollides o1 o2 m1 m2 xx yy)) := by
          intro yy hys xx hxs
          have hxlt : (xx : ℚ) < overlapW o1 o2 :=
            cast_lt_of_lt_toUsize _ _ ((mem_stepByRange _ _ _).mp hxs).1
          have hylt : (yy : ℚ) < overlapH o1 o2 :=
            cast_lt_of_lt_toUsize _ _ ((mem_stepByRange _ _ _).mp hys).1
          rw [sampleCollides_eq o1 o2 m1 m2 tw1 th1 tw2 th2 hf1 hf2
            xx yy hxlt hylt]
          rfl
        have hall_t : ((stepByRange (toUsize (overlapH o1 o2)) skip).all
            (fun yy => (stepByRange (toUsize (overlapW o1 o2)) skip).all
              (fun xx => isOkB (sampleCollides o1 o2 m1 m2 xx yy)))) = true := by
          rw [List.all_eq_true]
          intro yy hys
          rw [List.all_eq_true]
          intro xx hxs
          rw [hsampval yy hys xx hxs]
          rfl
        have hrows : ∀ yy ∈ stepByRange (toUsize (overlapH o1 o2)) skip,
            firstHit (fun xx => sampleCollides o1 o2 m1 m2 xx yy)
              (stepByRange (toUsize (overlapW o1 o2)) skip) =
            .ok ((stepByRange (toUsize (overlapW o1 o2)) skip).any
              (fun xx => okTrue (sampleCollides o1 o2 m1 m2 xx yy))) := by
          intro yy hys
          exact firstHit_eq_ok_any _ _ _ (fun xx hxs => hsampval yy hys xx hxs)
        have hseq : check_collision o1 o2 skip =
            .ok ((stepByRange (toUsize (overlapH o1 o2)) skip).any
              (fun yy => (stepByRange (toUsize (overlapW o1 o2)) skip).any
                (fun xx => okTrue (sampleCollides o1 o2 m1 m2 xx yy)))) := by
          rw [check_collision_fine o1 o2 m1 m2 h1 h2 hg.1 hg.2 skip (by omega)]
          exact firstHit_eq_ok_any _ _ _ hrows
        have hgneg : ¬ (overlapW o1 o2 ≤ 0 ∨ overlapH o1 o2 ≤ 0) := by
          push_neg
          exact hg
        unfold check_collision_native
        rw [h1, h2]
        simp only [if_neg hgneg, if_neg (show ¬ skip = 0 by omega), hall_t,
          if_true, hseq]

theorem unitClear_fits : MaskFits unitClear [0] 1 1 := by
  unfold MaskFits
  refine ⟨le_refl 1, le_refl 1, ?_, ?_, by decide⟩ <;> norm_num [unitClear]

theorem claim_C9_witness :
    (1 ≤ 1) ∧
    check_collision_native unitOpaque unitClear 1 =
      check_collision unitOpaque unitClear 1 :=
  ⟨le_refl 1,
   claim_C9 unitOpaque unitClear 1 (le_refl 1)
     (fun m hm => by
       injection hm with h
       subst h
       exact ⟨1, 1, unitOpaque_fits⟩)
     (fun m hm => by
       injection hm with h
       subst h
       exact ⟨1, 1, unitClear_fits⟩)⟩

/-- C3 refuted on the code: `check_collision` has no bounds check in the
fine phase; a collidable whose mask is `Some` but shorter than its texture
size calls for (here `Some []` with a 1×1 texture) drives `mask[idx/8]` out
of bounds at the very first sample and the call panics instead of treating
the sample as "no collision". -/
theorem claim_C3_fault :
    check_collision shortMasked shortMasked 1 = .error "index out of bounds" := by
  have hov : overlapW shortMasked shortMasked = 1 := by
    norm_num [overlapW, overlapX, shortMasked]
  have hoh : overlapH shortMasked shortMasked = 1 := by
    norm_num [overlapH, overlapY, shortMasked]
  rw [check_collision_fine shortMasked shortMasked [] [] rfl rfl
    (by rw [hov]; norm_num) (by rw [hoh]; norm_num) 1 one_ne_zero]
  rw [hov, hoh]
  have h1 : toUsize (1 : ℚ) = 1 := by
    unfold toUsize
    rw [Int.floor_one]
    rfl
  rw [h1]
  have hs : sampleCollides shortMasked shortMasked [] [] 0 0 =
      .error "index out of bounds" := rfl
  simp [show stepByRange 1 1 = [0] from rfl, firstHit, hs]

/-- C4 refuted on the code: `AnimatedImage::new` on a 16×1 spritesheet with
`cols = 2, rows = 1` reports the single-frame texture size 8×1 but
`get_mask` falls back to the whole-sheet mask of `ceil(16*1/8) = 2` bytes,
violating the invariant `mask length = ceil(texture_width*texture_height/8)
= 1` for the currently displayed frame. -/
theorem claim_C4_fault :
    sheetAnim.texture_size.x = 8 ∧ sheetAnim.texture_size.y = 1 ∧
    sheetAnim.get_mask = some [127, 255] ∧
    ([127, 255] : List ℕ).length = 2 ∧
    (toUsize 8 * toUsize 1 + 7) / 8 = 1 := by
  refine ⟨?_, ?_, ?_, rfl, ?_⟩
  · show (AnimatedImage.texture_size sheetAnim).x = 8
    unfold AnimatedImage.texture_size sheetAnim AnimatedImage.new
    norm_num
  · show (AnimatedImage.texture_size sheetAnim).y = 1
    unfold AnimatedImage.texture_size sheetAnim AnimatedImage.new
    norm_num
  · decide
  · have h8 : toUsize (8 : ℚ) = 8 := by
      unfold toUsize
      rw [show ((8 : ℚ)) = ((8 : ℕ) : ℚ) by norm_num, Int.floor_natCast]
      rfl
    have hone : toUsize (1 : ℚ) = 1 := by
      unfold toUsize
      rw [Int.floor_one]
      rfl
    rw [h8, hone]
